import Mathlib

/-!
Verification of the serialization subsystem taught in the "Persistence"
lesson: the class hierarchy Serializer / ObservationSerializer /
PatientSerializer / PatientJSONSerializer (final versions of the lesson's
inflammation/serializers.py), together with a model of the Python runtime
pieces they rely on (dynamically typed values, dicts, keyword-argument
construction, the json module, and a file store).

Python values are embedded as the inductive PyObj.  Observation and
Patient instances are PyObj constructors carrying their attributes, so
ill-typed data (for example an Observation whose value is another
Observation) is representable, exactly as in Python.  Exceptions are
values of PyError; every operation that can raise returns Except PyError.
-/

/-- Exceptions that the embedded code can raise.  The constructors
typeError, keyError, attributeError, jsonDecodeError, osError and
notImplementedError model the Python exception classes actually reachable
from the source.  schemaError and formatError model the error classes the
specification names; the source defines no such classes, and no embedded
operation ever produces them — they are present so that the spec's claims
about them can be stated. -/
inductive PyError where
  | typeError
  | keyError
  | attributeError
  | jsonDecodeError
  | osError
  | notImplementedError
  | schemaError
  | formatError
deriving DecidableEq, Repr

/-- A Python value: strings, ints, booleans, None, lists, dicts with
string keys (insertion ordered, as in Python), and instances of the two
model classes.  An Observation instance stores its day and value
attributes; a Patient instance stores its name and observations
attributes.  Attribute values are arbitrary PyObj, as in Python. -/
inductive PyObj where
  | str (s : String)
  | int (n : Int)
  | bool (b : Bool)
  | pyNone
  | list (xs : List PyObj)
  | dict (kvs : List (String × PyObj))
  | obs (day value : PyObj)
  | patient (name observations : PyObj)

/-- Iteration, as in a Python for-loop: lists yield their elements,
strings yield one-character strings, dicts yield their keys; every other
value of the model raises TypeError (ints, bools, None and instances of
the two model classes, which define no iteration protocol). -/
def pyIter : PyObj → Except PyError (List PyObj)
  | .list xs => .ok xs
  | .str s => .ok (s.data.map fun c => .str (String.mk [c]))
  | .dict kvs => .ok (kvs.map fun kv => .str kv.1)
  | _ => .error .typeError

/-- Lookup in a dict, first binding of the key. -/
def dictGet (kvs : List (String × PyObj)) (k : String) : Option PyObj :=
  match kvs with
  | [] => Option.none
  | (k', v) :: rest => if k' = k then some v else dictGet rest k

/-- Removal as in Python dict.pop(k): remove the binding of k, returning the removed value and
the remaining bindings in their original order; none models the KeyError
raised when k is absent. -/
def dictPop (kvs : List (String × PyObj)) (k : String) : Option (PyObj × List (String × PyObj)) :=
  match kvs with
  | [] => Option.none
  | (k', v) :: rest =>
    if k' = k then some (v, rest)
    else
      match dictPop rest k with
      | some (v', rest') => some (v', (k', v) :: rest')
      | Option.none => Option.none

/-- Assignment as in Python d[k] = v: replace the value at k keeping its position, or append a new
binding at the end, as Python dicts do. -/
def dictSet (kvs : List (String × PyObj)) (k : String) (v : PyObj) : List (String × PyObj) :=
  match kvs with
  | [] => [(k, v)]
  | (k', v') :: rest => if k' = k then (k', v) :: rest else (k', v') :: dictSet rest k v

/-- Map an effectful function over a list, stopping at the first raised
exception, as a Python list comprehension does. -/
def mapE (f : PyObj → Except PyError PyObj) : List PyObj → Except PyError (List PyObj)
  | [] => .ok []
  | x :: xs =>
    match f x with
    | .error e => .error e
    | .ok y =>
      match mapE f xs with
      | .error e => .error e
      | .ok ys => .ok (y :: ys)

/-- Modelled from the spec: the Observation record type of the missing
inflammation/models.py, a plain data holder with fields day and value,
constructed here as by Python's Observation(**d).  The call succeeds
exactly when d is a mapping whose keys are exactly day and value (any
order); a non-mapping argument or a missing or extra keyword raises
TypeError, by Python calling convention.  No field validation is
performed: the spec calls the record types plain data holders. -/
def Observation.fromKwargs (d : PyObj) : Except PyError PyObj :=
  match d with
  | .dict kvs =>
    match dictGet kvs "day", dictGet kvs "value" with
    | some dv, some vv => if kvs.length = 2 then .ok (.obs dv vv) else .error .typeError
    | _, _ => .error .typeError
  | _ => .error .typeError

/-- Modelled from the spec: the Patient record type of the missing
inflammation/models.py, a plain data holder with fields name and
observations, constructed as by Python's Patient(**item): the keys must be
exactly name and observations, otherwise TypeError. -/
def Patient.fromKwargs (kvs : List (String × PyObj)) : Except PyError PyObj :=
  match dictGet kvs "name", dictGet kvs "observations" with
  | some nv, some ov => if kvs.length = 2 then .ok (.patient nv ov) else .error .typeError
  | _, _ => .error .typeError

/-- The file store seen by save and load: a map from paths to the text
content of existing files. -/
def FS : Type := String → Option String

/-- Overwrite one path of the store. -/
def fsWrite (fs : FS) (path : String) (content : String) : FS :=
  fun p => if p = path then some content else fs p

/-- Serializer.serialize: the base class raises NotImplementedError. -/
def Serializer.serialize (_instances : PyObj) : Except PyError PyObj :=
  .error .notImplementedError

/-- Serializer.deserialize: the base class raises NotImplementedError. -/
def Serializer.deserialize (_data : PyObj) : Except PyError PyObj :=
  .error .notImplementedError

/-- Serializer.save: the base class raises NotImplementedError before
touching the file store. -/
def Serializer.save (_instances : PyObj) (_path : String) (fs : FS) : Except PyError Unit × FS :=
  (.error .notImplementedError, fs)

/-- Serializer.load: the base class raises NotImplementedError. -/
def Serializer.load (_path : String) (_fs : FS) : Except PyError PyObj :=
  .error .notImplementedError

/-- The body of ObservationSerializer.serialize's list comprehension:
build the dict with day and value read from the instance's attributes;
accessing .day on anything but an Observation raises AttributeError. -/
def obsToRecord (x : PyObj) : Except PyError PyObj :=
  match x with
  | .obs d v => .ok (.dict [("day", d), ("value", v)])
  | _ => .error .attributeError

/-- ObservationSerializer.serialize:
return a list with, per instance and in order, the generic record
consisting of the day and value attributes. -/
def ObservationSerializer.serialize (instances : PyObj) : Except PyError PyObj :=
  match pyIter instances with
  | .error e => .error e
  | .ok xs =>
    match mapE obsToRecord xs with
    | .error e => .error e
    | .ok ys => .ok (.list ys)

/-- ObservationSerializer.deserialize:
return a list with, per generic record and in order, cls.model(**d). -/
def ObservationSerializer.deserialize (data : PyObj) : Except PyError PyObj :=
  match pyIter data with
  | .error e => .error e
  | .ok xs =>
    match mapE Observation.fromKwargs xs with
    | .error e => .error e
    | .ok ys => .ok (.list ys)

/-- ObservationSerializer.save is not overridden; the call resolves to
the inherited Serializer.save. -/
def ObservationSerializer.save : PyObj → String → FS → Except PyError Unit × FS :=
  Serializer.save

/-- ObservationSerializer.load is not overridden; the call resolves to
the inherited Serializer.load. -/
def ObservationSerializer.load : String → FS → Except PyError PyObj :=
  Serializer.load

/-- The body of PatientSerializer.serialize's list comprehension: the
dict with the instance's name attribute and
ObservationSerializer.serialize of its observations attribute; accessing
.name on anything but a Patient raises AttributeError. -/
def patientToRecord (x : PyObj) : Except PyError PyObj :=
  match x with
  | .patient n o =>
    match ObservationSerializer.serialize o with
    | .error e => .error e
    | .ok so => .ok (.dict [("name", n), ("observations", so)])
  | _ => .error .attributeError

/-- PatientSerializer.serialize:
return a list with, per patient and in order, the generic record. -/
def PatientSerializer.serialize (instances : PyObj) : Except PyError PyObj :=
  match pyIter instances with
  | .error e => .error e
  | .ok xs =>
    match mapE patientToRecord xs with
    | .error e => .error e
    | .ok ys => .ok (.list ys)

/-- One pass of PatientSerializer.deserialize's loop body over item:
item.pop('observations') (KeyError on a dict without that key,
AttributeError on non-dicts other than lists, TypeError on lists, whose
pop expects an index), then item['observations'] =
ObservationSerializer.deserialize(popped) — an in-place update of the
dict — then cls.model(**item).  Returns the loop body's result together
with the state of item after the call, since item is mutated. -/
def deserializeItem (item : PyObj) : Except PyError PyObj × PyObj :=
  match item with
  | .dict kvs =>
    match dictPop kvs "observations" with
    | Option.none => (.error .keyError, .dict kvs)
    | some (v, kvs1) =>
      match ObservationSerializer.deserialize v with
      | .error e => (.error e, .dict kvs1)
      | .ok os =>
        let kvs2 := dictSet kvs1 "observations" os
        (Patient.fromKwargs kvs2, .dict kvs2)
  | .list xs => (.error .typeError, .list xs)
  | x => (.error .attributeError, x)

/-- PatientSerializer.deserialize's loop over the items of a list: stops
at the first exception; returns the result and the final states of the
items (those already processed are mutated, the rest untouched). -/
def deserializeLoop : List PyObj → Except PyError (List PyObj) × List PyObj
  | [] => (.ok [], [])
  | x :: xs =>
    match deserializeItem x with
    | (.error e, x') => (.error e, x' :: xs)
    | (.ok p, x') =>
      match deserializeLoop xs with
      | (.error e, xs') => (.error e, x' :: xs')
      | (.ok ps, xs') => (.ok (p :: ps), x' :: xs')

/-- PatientSerializer.deserialize: iterate over data, mutating each item
in place and constructing a Patient from it.  The second component is the
state of data after the call: when data is a list its dict elements have
been updated in place; iterating a string or a dict yields fresh
one-character strings or keys, whose .pop raises AttributeError without
mutating data (an empty string or dict iterates zero times and the loop
returns the empty list). -/
def PatientSerializer.deserialize (data : PyObj) : Except PyError PyObj × PyObj :=
  match data with
  | .list xs =>
    match deserializeLoop xs with
    | (.error e, xs') => (.error e, .list xs')
    | (.ok ps, xs') => (.ok (.list ps), .list xs')
  | d =>
    match pyIter d with
    | .error e => (.error e, d)
    | .ok [] => (.ok (.list []), d)
    | .ok (_ :: _) => (.error .attributeError, d)

/-- PatientSerializer.save is not overridden; it resolves to the
inherited Serializer.save. -/
def PatientSerializer.save : PyObj → String → FS → Except PyError Unit × FS :=
  Serializer.save

/-- PatientSerializer.load is not overridden; it resolves to the
inherited Serializer.load. -/
def PatientSerializer.load : String → FS → Except PyError PyObj :=
  Serializer.load

/-- Escape one character as Python's json.dump does for the quote and
backslash (the model leaves other characters verbatim). -/
def escChar (c : Char) : List Char :=
  if c = '"' then ['\\', '"'] else if c = '\\' then ['\\', '\\'] else [c]

/-- Escape the characters of a string for inclusion in JSON text. -/
def escString (s : String) : List Char := (s.data.map escChar).flatten

/-- One decimal digit as a character. -/
def digitChar : Nat → Char
  | 0 => '0' | 1 => '1' | 2 => '2' | 3 => '3' | 4 => '4'
  | 5 => '5' | 6 => '6' | 7 => '7' | 8 => '8' | _ => '9'

/-- Decimal digits of n, most significant first; the fuel only serves
structural recursion and natToDigits always supplies enough. -/
def natToDigitsAux : Nat → Nat → List Char
  | 0, _ => []
  | fuel+1, n =>
    if n < 10 then [digitChar n] else natToDigitsAux fuel (n / 10) ++ [digitChar (n % 10)]

/-- Decimal digits of a natural number. -/
def natToDigits (n : Nat) : List Char := natToDigitsAux (n + 1) n

/-- Decimal text of an integer, as json.dump writes it. -/
def intChars (n : Int) : List Char :=
  if n < 0 then '-' :: natToDigits n.natAbs else natToDigits n.natAbs

/-- The chunk json.dump emits for an object key: the quoted key followed
by a colon and a space (Python's default separators). -/
def keyChars (k : String) : List Char := '"' :: escString k ++ ['"', ':', ' ']

mutual
/-- Modelled from the spec: json.dump of the missing json stdlib module.
It streams chunks to the already-open file, so the first component is the
text written so far and the second reports success: on an instance of a
model class (which json cannot serialize) it raises TypeError after the
preceding chunks have already been written, exactly the failure mode the
lesson itself exhibits.  Output uses Python's default separators. -/
def emitV : PyObj → List Char × Bool
  | .str s => ('"' :: escString s ++ ['"'], true)
  | .int n => (intChars n, true)
  | .bool true => (['t','r','u','e'], true)
  | .bool false => (['f','a','l','s','e'], true)
  | .pyNone => (['n','u','l','l'], true)
  | .obs _ _ => ([], false)
  | .patient _ _ => ([], false)
  | .list [] => (['[', ']'], true)
  | .list (x :: xs) =>
    match emitV x, emitArrRest xs with
    | (cx, true), (cr, true) => ('[' :: cx ++ cr ++ [']'], true)
    | (cx, true), (cr, false) => ('[' :: cx ++ cr, false)
    | (cx, false), _ => ('[' :: cx, false)
  | .dict [] => (['\x7b', '\x7d'], true)
  | .dict ((k, v) :: kvs) =>
    match emitV v, emitObjRest kvs with
    | (cv, true), (cr, true) => ('\x7b' :: keyChars k ++ cv ++ cr ++ ['\x7d'], true)
    | (cv, true), (cr, false) => ('\x7b' :: keyChars k ++ cv ++ cr, false)
    | (cv, false), _ => ('\x7b' :: keyChars k ++ cv, false)

/-- Chunks for the elements of an array after the first, each preceded by
a comma and a space. -/
def emitArrRest : List PyObj → List Char × Bool
  | [] => ([], true)
  | x :: xs =>
    match emitV x, emitArrRest xs with
    | (cx, true), (cr, b) => (',' :: ' ' :: cx ++ cr, b)
    | (cx, false), _ => (',' :: ' ' :: cx, false)

/-- Chunks for the members of an object after the first. -/
def emitObjRest : List (String × PyObj) → List Char × Bool
  | [] => ([], true)
  | (k, v) :: kvs =>
    match emitV v, emitObjRest kvs with
    | (cv, true), (cr, b) => (',' :: ' ' :: keyChars k ++ cv ++ cr, b)
    | (cv, false), _ => (',' :: ' ' :: keyChars k ++ cv, false)
end

/-- JSON insignificant whitespace. -/
def isWs (c : Char) : Bool := c = ' ' || c = '\n' || c = '\t' || c = '\r'

/-- Drop leading whitespace. -/
def skipWs : List Char → List Char
  | [] => []
  | c :: cs => if isWs c then skipWs cs else c :: cs

/-- Decimal digit test. -/
def isDig (c : Char) : Bool := 48 ≤ c.toNat && c.toNat ≤ 57

/-- Numeric value of a digit character. -/
def digVal (c : Char) : Nat := c.toNat - 48

/-- Consume a run of digits, folding them onto acc; returns the value and
the rest of the input. -/
def parseDigits : List Char → Nat → Nat × List Char
  | [], acc => (acc, [])
  | c :: cs, acc => if isDig c then parseDigits cs (acc * 10 + digVal c) else (acc, c :: cs)

/-- Decode a string-escape character. -/
def escDecode (c : Char) : Option Char :=
  if c = '"' then some '"'
  else if c = '\\' then some '\\'
  else if c = '/' then some '/'
  else if c = 'n' then some '\n'
  else if c = 't' then some '\t'
  else if c = 'r' then some '\r'
  else if c = 'b' then some (Char.ofNat 8)
  else if c = 'f' then some (Char.ofNat 12)
  else Option.none

/-- Parse the body of a JSON string after the opening quote, up to and
including the closing quote; returns the decoded characters and the rest
of the input. -/
def parseStringBody : List Char → Except PyError (List Char × List Char)
  | [] => .error .jsonDecodeError
  | c :: cs =>
    if c = '"' then .ok ([], cs)
    else if c = '\\' then
      match cs with
      | [] => .error .jsonDecodeError
      | e :: cs2 =>
        match escDecode e with
        | Option.none => .error .jsonDecodeError
        | some d =>
          match parseStringBody cs2 with
          | .error er => .error er
          | .ok (b, r) => .ok (d :: b, r)
    else
      match parseStringBody cs with
      | .error er => .error er
      | .ok (b, r) => .ok (c :: b, r)

mutual
/-- Modelled from the spec: json.load's recursive-descent parser of the
missing json stdlib module, on the document grammar the on-disk format
uses (strings, integers, true/false/null, arrays, objects).  A value that
cannot be parsed raises json.JSONDecodeError.  The fuel argument only
serves structural recursion; jsonLoad supplies more fuel than any input
can consume. -/
def parseValue : Nat → List Char → Except PyError (PyObj × List Char)
  | 0, _ => .error .jsonDecodeError
  | fuel+1, s =>
    match skipWs s with
    | [] => .error .jsonDecodeError
    | c :: cs =>
      if c = '"' then
        match parseStringBody cs with
        | .error e => .error e
        | .ok (b, r) => .ok (.str (String.mk b), r)
      else if c = '\x7b' then
        match skipWs cs with
        | [] => .error .jsonDecodeError
        | c2 :: cs2 =>
          if c2 = '\x7d' then .ok (.dict [], cs2)
          else if c2 = '"' then
            match parseStringBody cs2 with
            | .error e => .error e
            | .ok (k, r1) =>
              match skipWs r1 with
              | [] => .error .jsonDecodeError
              | c3 :: r2 =>
                if c3 = ':' then
                  match parseValue fuel r2 with
                  | .error e => .error e
                  | .ok (v, r3) =>
                    match parseObjRest fuel r3 with
                    | .error e => .error e
                    | .ok (kvs, r4) => .ok (.dict ((String.mk k, v) :: kvs), r4)
                else .error .jsonDecodeError
          else .error .jsonDecodeError
      else if c = '[' then
        match skipWs cs with
        | [] => .error .jsonDecodeError
        | c2 :: cs2 =>
          if c2 = ']' then .ok (.list [], cs2)
          else
            match parseValue fuel (c2 :: cs2) with
            | .error e => .error e
            | .ok (v, r) =>
              match parseArrRest fuel r with
              | .error e => .error e
              | .ok (vs, r2) => .ok (.list (v :: vs), r2)
      else if c = 't' then
        match cs with
        | 'r' :: 'u' :: 'e' :: r => .ok (.bool true, r)
        | _ => .error .jsonDecodeError
      else if c = 'f' then
        match cs with
        | 'a' :: 'l' :: 's' :: 'e' :: r => .ok (.bool false, r)
        | _ => .error .jsonDecodeError
      else if c = 'n' then
        match cs with
        | 'u' :: 'l' :: 'l' :: r => .ok (.pyNone, r)
        | _ => .error .jsonDecodeError
      else if c = '-' then
        match cs with
        | [] => .error .jsonDecodeError
        | c2 :: cs2 =>
          if isDig c2 then
            match parseDigits (c2 :: cs2) 0 with
            | (m, r) => .ok (.int (-(m : Int)), r)
          else .error .jsonDecodeError
      else if isDig c then
        match parseDigits (c :: cs) 0 with
        | (m, r) => .ok (.int (m : Int), r)
      else .error .jsonDecodeError

/-- After an array element: a comma and a further element, or the closing
bracket. -/
def parseArrRest : Nat → List Char → Except PyError (List PyObj × List Char)
  | 0, _ => .error .jsonDecodeError
  | fuel+1, s =>
    match skipWs s with
    | [] => .error .jsonDecodeError
    | c :: cs =>
      if c = ']' then .ok ([], cs)
      else if c = ',' then
        match parseValue fuel cs with
        | .error e => .error e
        | .ok (v, r) =>
          match parseArrRest fuel r with
          | .error e => .error e
          | .ok (vs, r2) => .ok (v :: vs, r2)
      else .error .jsonDecodeError

/-- After an object member: a comma and a further member, or the closing
brace. -/
def parseObjRest : Nat → List Char → Except PyError (List (String × PyObj) × List Char)
  | 0, _ => .error .jsonDecodeError
  | fuel+1, s =>
    match skipWs s with
    | [] => .error .jsonDecodeError
    | c :: cs =>
      if c = '\x7d' then .ok ([], cs)
      else if c = ',' then
        match skipWs cs with
        | [] => .error .jsonDecodeError
        | c2 :: cs2 =>
          if c2 = '"' then
            match parseStringBody cs2 with
            | .error e => .error e
            | .ok (k, r1) =>
              match skipWs r1 with
              | [] => .error .jsonDecodeError
              | c3 :: r2 =>
                if c3 = ':' then
                  match parseValue fuel r2 with
                  | .error e => .error e
                  | .ok (v, r3) =>
                    match parseObjRest fuel r3 with
                    | .error e => .error e
                    | .ok (kvs, r4) => .ok ((String.mk k, v) :: kvs, r4)
                else .error .jsonDecodeError
          else .error .jsonDecodeError
      else .error .jsonDecodeError
end

/-- Modelled from the spec: json.load on the text of a file — parse one
JSON value and reject trailing non-whitespace (Python's Extra data
error), raising json.JSONDecodeError when the text is not valid JSON. -/
def jsonLoad (text : String) : Except PyError PyObj :=
  match parseValue (text.data.length + 1) text.data with
  | .error e => .error e
  | .ok (v, rest) =>
    match skipWs rest with
    | [] => .ok v
    | _ :: _ => .error .jsonDecodeError

/-- PatientJSONSerializer.save: open(path, 'w') truncates the file at
path before anything else, then cls.serialize(instances) is evaluated and
json.dump streams its encoding into the file.  The returned store
therefore maps path to the text written up to the point of success or
failure: the empty string when serialize raises, a proper partial text
when encoding fails midway, the full text on success. -/
def PatientJSONSerializer.save (instances : PyObj) (path : String) (fs : FS) :
    Except PyError Unit × FS :=
  match PatientSerializer.serialize instances with
  | .error e => (.error e, fsWrite fs path "")
  | .ok v =>
    match emitV v with
    | (cs, true) => (.ok (), fsWrite fs path (String.mk cs))
    | (cs, false) => (.error .typeError, fsWrite fs path (String.mk cs))

/-- PatientJSONSerializer.load: open the file at path (OSError when it
does not exist), json.load its text, then cls.deserialize the result —
the deserialize call happens inside load, so its exceptions are load's. -/
def PatientJSONSerializer.load (path : String) (fs : FS) : Except PyError PyObj :=
  match fs path with
  | Option.none => .error .osError
  | some text =>
    match jsonLoad text with
    | .error e => .error e
    | .ok data => (PatientSerializer.deserialize data).1

/-- PatientJSONSerializer.serialize is inherited from PatientSerializer. -/
def PatientJSONSerializer.serialize : PyObj → Except PyError PyObj :=
  PatientSerializer.serialize

/-- PatientJSONSerializer.deserialize is inherited from PatientSerializer. -/
def PatientJSONSerializer.deserialize : PyObj → Except PyError PyObj × PyObj :=
  PatientSerializer.deserialize

set_option maxRecDepth 4000

/-- The generic record PatientSerializer.serialize emits for an
Observation instance. -/
def obsRec : PyObj → PyObj
  | .obs d v => .dict [("day", d), ("value", v)]
  | _ => .pyNone

/-- The generic record PatientSerializer.serialize emits for a Patient
instance whose observations attribute is a list. -/
def patRec : PyObj → PyObj
  | .patient n (.list os) => .dict [("name", n), ("observations", .list (os.map obsRec))]
  | _ => .pyNone

/-- The state PatientSerializer.deserialize leaves a patient's generic
record in: the observations entry now holds the reconstructed Observation
instances instead of generic records. -/
def patMutRec : PyObj → PyObj
  | .patient n (.list os) => .dict [("name", n), ("observations", .list os)]
  | _ => .pyNone

/-- A well-formed Observation instance per the spec's data model: integer
day, integer value. -/
def goodObs : PyObj → Bool
  | .obs (.int _) (.int _) => true
  | _ => false

/-- A well-formed Patient instance per the spec's data model: a non-empty
string name and a list of well-formed observations. -/
def goodPatient : PyObj → Bool
  | .patient (.str n) (.list os) => (n != "") && os.all goodObs
  | _ => false

/-- A list is numeral-safe when it does not begin with a digit, so a
digit run before it ends exactly there. -/
def numSafe : List Char → Bool
  | [] => true
  | c :: _ => !(isDig c)

/-- The patient sample the lesson's test builds: Alice with observations
(0,3), (1,4) and Bob with observation (0,10) (values shifted to the
round-trip example of the spec). -/
def samplePatients : List PyObj :=
  [.patient (.str "Alice") (.list [.obs (.int 0) (.int 3), .obs (.int 1) (.int 4)]),
   .patient (.str "Bob") (.list [.obs (.int 0) (.int 10)])]

/-- A patient whose observation has a non-JSON-serializable value (an
Observation instance nested where a number belongs): serialize accepts it,
json.dump fails on it midway through writing. -/
def badPatients : List PyObj :=
  [.patient (.str "A") (.list [.obs (.int 0) (.obs (.int 0) (.int 1))])]

theorem goodObs_shape (o : PyObj) (h : goodObs o = true) :
    ∃ d v : Int, o = .obs (.int d) (.int v) := by
  cases o with
  | obs d v =>
    cases d <;> cases v <;> try exact Bool.noConfusion h
    next dn vn => exact ⟨dn, vn, rfl⟩
  | str s => exact Bool.noConfusion h
  | int n => exact Bool.noConfusion h
  | bool b => exact Bool.noConfusion h
  | pyNone => exact Bool.noConfusion h
  | list xs => exact Bool.noConfusion h
  | dict kvs => exact Bool.noConfusion h
  | patient n o => exact Bool.noConfusion h

theorem goodPatient_shape (p : PyObj) (h : goodPatient p = true) :
    ∃ s os, p = .patient (.str s) (.list os) ∧ s ≠ "" ∧ os.all goodObs = true := by
  cases p with
  | patient n o =>
    cases n <;> cases o <;> try exact Bool.noConfusion h
    next s os =>
      have h' : ((s != "") && os.all goodObs) = true := h
      simp only [Bool.and_eq_true, bne_iff_ne, ne_eq] at h'
      exact ⟨s, os, rfl, h'.1, h'.2⟩
  | str s => exact Bool.noConfusion h
  | int n => exact Bool.noConfusion h
  | bool b => exact Bool.noConfusion h
  | pyNone => exact Bool.noConfusion h
  | list xs => exact Bool.noConfusion h
  | dict kvs => exact Bool.noConfusion h
  | obs d v => exact Bool.noConfusion h

theorem mapE_obsToRecord (os : List PyObj) (h : os.all goodObs = true) :
    mapE obsToRecord os = .ok (os.map obsRec) := by
  induction os with
  | nil => rfl
  | cons o os ih =>
    simp only [List.all_cons, Bool.and_eq_true] at h
    obtain ⟨d, v, rfl⟩ := goodObs_shape o h.1
    simp [mapE, obsToRecord, ih h.2, obsRec]

theorem obs_serialize_eq (os : List PyObj) (h : os.all goodObs = true) :
    ObservationSerializer.serialize (.list os) = .ok (.list (os.map obsRec)) := by
  simp [ObservationSerializer.serialize, pyIter, mapE_obsToRecord os h]

theorem fromKwargs_obsRec (d v : PyObj) :
    Observation.fromKwargs (obsRec (.obs d v)) = .ok (.obs d v) := rfl

theorem mapE_fromKwargs (os : List PyObj) (h : os.all goodObs = true) :
    mapE Observation.fromKwargs (os.map obsRec) = .ok os := by
  induction os with
  | nil => rfl
  | cons o os ih =>
    simp only [List.all_cons, Bool.and_eq_true] at h
    obtain ⟨d, v, rfl⟩ := goodObs_shape o h.1
    simp [mapE, List.map, fromKwargs_obsRec, ih h.2]

theorem obs_deserialize_eq (os : List PyObj) (h : os.all goodObs = true) :
    ObservationSerializer.deserialize (.list (os.map obsRec)) = .ok (.list os) := by
  simp [ObservationSerializer.deserialize, pyIter, mapE_fromKwargs os h]

theorem patientToRecord_eq (p : PyObj) (h : goodPatient p = true) :
    patientToRecord p = .ok (patRec p) := by
  obtain ⟨s, os, rfl, hne, hos⟩ := goodPatient_shape p h
  simp [patientToRecord, obs_serialize_eq os hos, patRec]

theorem mapE_patientToRecord (ps : List PyObj) (h : ps.all goodPatient = true) :
    mapE patientToRecord ps = .ok (ps.map patRec) := by
  induction ps with
  | nil => rfl
  | cons p ps ih =>
    simp only [List.all_cons, Bool.and_eq_true] at h
    simp [mapE, patientToRecord_eq p h.1, ih h.2]

theorem pat_serialize_eq (ps : List PyObj) (h : ps.all goodPatient = true) :
    PatientSerializer.serialize (.list ps) = .ok (.list (ps.map patRec)) := by
  simp [PatientSerializer.serialize, pyIter, mapE_patientToRecord ps h]

theorem deserializeItem_patRec (p : PyObj) (h : goodPatient p = true) :
    deserializeItem (patRec p) = (.ok p, patMutRec p) := by
  obtain ⟨s, os, rfl, hne, hos⟩ := goodPatient_shape p h
  simp [patRec, deserializeItem, dictPop, obs_deserialize_eq os hos,
    dictSet, Patient.fromKwargs, dictGet, patMutRec]

theorem deserializeLoop_patRec (ps : List PyObj) (h : ps.all goodPatient = true) :
    deserializeLoop (ps.map patRec) = (.ok ps, ps.map patMutRec) := by
  induction ps with
  | nil => rfl
  | cons p ps ih =>
    simp only [List.all_cons, Bool.and_eq_true] at h
    simp [deserializeLoop, deserializeItem_patRec p h.1, ih h.2]

theorem pat_deserialize_eq (ps : List PyObj) (h : ps.all goodPatient = true) :
    PatientSerializer.deserialize (.list (ps.map patRec)) =
      (.ok (.list ps), .list (ps.map patMutRec)) := by
  simp [PatientSerializer.deserialize, deserializeLoop_patRec ps h]

theorem skipWs_cons (c : Char) (t : List Char) (h : isWs c = false) :
    skipWs (c :: t) = c :: t := by
  simp [skipWs, h]

theorem skipWs_cons_ws (c : Char) (t : List Char) (h : isWs c = true) :
    skipWs (c :: t) = skipWs t := by
  simp [skipWs, h]

theorem parseValue_ws_cons (f : Nat) (c : Char) (s : List Char) (h : isWs c = true) :
    parseValue f (c :: s) = parseValue f s := by
  cases f with
  | zero => rfl
  | succ f => rw [parseValue, parseValue, skipWs_cons_ws c s h]

theorem parseStringBody_esc (l : List Char) (rest : List Char) :
    parseStringBody ((l.map escChar).flatten ++ '"' :: rest) = .ok (l, rest) := by
  induction l with
  | nil =>
    rw [List.map_nil, List.flatten_nil, List.nil_append, parseStringBody.eq_def]
    simp
  | cons c l ih =>
    by_cases h1 : c = '"'
    · subst h1
      rw [List.map_cons, List.flatten_cons, show escChar '"' = ['\\', '"'] from rfl]
      rw [List.cons_append, List.cons_append, parseStringBody.eq_def]
      simp [escDecode, ih]
    · by_cases h2 : c = '\\'
      · subst h2
        rw [List.map_cons, List.flatten_cons, show escChar '\\' = ['\\', '\\'] from rfl]
        rw [List.cons_append, List.cons_append, parseStringBody.eq_def]
        simp [escDecode, ih]
      · rw [List.map_cons, List.flatten_cons, show escChar c = [c] by simp [escChar, h1, h2]]
        rw [List.cons_append, List.nil_append, parseStringBody.eq_def]
        simp [h1, h2, ih]

theorem isDig_digitChar (n : Nat) (h : n < 10) : isDig (digitChar n) = true := by
  interval_cases n <;> decide

theorem digVal_digitChar (n : Nat) (h : n < 10) : digVal (digitChar n) = n := by
  interval_cases n <;> decide

theorem isWs_of_isDig (c : Char) (h : isDig c = true) : isWs c = false := by
  cases hw : isWs c
  · rfl
  · exfalso
    simp only [isWs, Bool.or_eq_true, decide_eq_true_eq] at hw
    rcases hw with ((rfl | rfl) | rfl) | rfl <;> exact absurd h (by decide)

theorem natToDigitsAux_ne_nil (fuel n : Nat) (h : n < fuel) : natToDigitsAux fuel n ≠ [] := by
  cases fuel with
  | zero => omega
  | succ f =>
    rw [natToDigitsAux]
    split
    · simp
    · simp

theorem natToDigitsAux_digits (fuel : Nat) :
    ∀ n, n < fuel → ∀ c ∈ natToDigitsAux fuel n, isDig c = true := by
  induction fuel with
  | zero => omega
  | succ f ih =>
    intro n h c hc
    rw [natToDigitsAux] at hc
    split at hc
    · simp only [List.mem_singleton] at hc
      subst hc
      exact isDig_digitChar n (by omega)
    · rename_i h10
      simp only [List.mem_append, List.mem_singleton] at hc
      rcases hc with hc | hc
      · exact ih (n / 10) (by omega) c hc
      · subst hc
        exact isDig_digitChar (n % 10) (by omega)

theorem parseDigits_stop (l : List Char) (acc : Nat) (h : numSafe l = true) :
    parseDigits l acc = (acc, l) := by
  cases l with
  | nil => rfl
  | cons c cs =>
    have h' : isDig c = false := by
      have : (!(isDig c)) = true := h
      simp only [Bool.not_eq_true'] at this
      exact this
    simp [parseDigits, h']

theorem parseDigits_shift (fuel : Nat) :
    ∀ n acc rest, n < fuel →
      parseDigits (natToDigitsAux fuel n ++ rest) acc =
        parseDigits rest (acc * 10 ^ (natToDigitsAux fuel n).length + n) := by
  induction fuel with
  | zero => omega
  | succ f ih =>
    intro n acc rest h
    by_cases h10 : n < 10
    · rw [natToDigitsAux, if_pos h10]
      simp only [List.singleton_append, List.length_singleton, pow_one]
      simp [parseDigits, isDig_digitChar n h10, digVal_digitChar n h10]
    · rw [natToDigitsAux, if_neg h10, List.append_assoc]
      rw [ih (n / 10) acc ([digitChar (n % 10)] ++ rest) (by omega)]
      simp only [List.singleton_append]
      rw [show parseDigits (digitChar (n % 10) :: rest)
            (acc * 10 ^ (natToDigitsAux f (n / 10)).length + n / 10) =
          parseDigits rest
            ((acc * 10 ^ (natToDigitsAux f (n / 10)).length + n / 10) * 10 + n % 10) by
        simp [parseDigits, isDig_digitChar (n % 10) (by omega), digVal_digitChar (n % 10) (by omega)]]
      congr 1
      rw [List.length_append, List.length_singleton, pow_succ]
      have hdm : n / 10 * 10 + n % 10 = n := by omega
      calc (acc * 10 ^ (natToDigitsAux f (n / 10)).length + n / 10) * 10 + n % 10
          = acc * (10 ^ (natToDigitsAux f (n / 10)).length * 10) + (n / 10 * 10 + n % 10) := by
            ring
        _ = acc * (10 ^ (natToDigitsAux f (n / 10)).length * 10) + n := by rw [hdm]

theorem parseDigits_natToDigits (n : Nat) (rest : List Char) (h : numSafe rest = true) :
    parseDigits (natToDigits n ++ rest) 0 = (n, rest) := by
  rw [natToDigits, parseDigits_shift (n + 1) n 0 rest (by omega), parseDigits_stop rest _ h]
  simp

theorem natToDigits_head (n : Nat) :
    ∃ c cs, natToDigits n = c :: cs ∧ isDig c = true := by
  have hne := natToDigitsAux_ne_nil (n + 1) n (by omega)
  have hdigs := natToDigitsAux_digits (n + 1) n (by omega)
  rw [natToDigits]
  cases hd : natToDigitsAux (n + 1) n with
  | nil => exact absurd hd hne
  | cons c cs =>
    refine ⟨c, cs, rfl, hdigs c ?_⟩
    rw [hd]
    simp

theorem parseValue_quote (f : Nat) (b : List Char) :
    parseValue (f+1) ('"' :: b) =
      (match parseStringBody b with
       | .error e => .error e
       | .ok (bb, r) => .ok (.str (String.mk bb), r)) := by
  rw [parseValue, skipWs_cons '"' b (by decide)]
  simp

theorem parseValue_digit (f : Nat) (c : Char) (b : List Char) (h : isDig c = true) :
    parseValue (f+1) (c :: b) =
      (match parseDigits (c :: b) 0 with
       | (m, r) => .ok (.int (m : Int), r)) := by
  have h1 : c ≠ '"' := by rintro rfl; exact absurd h (by decide)
  have h2 : c ≠ '\x7b' := by rintro rfl; exact absurd h (by decide)
  have h3 : c ≠ '[' := by rintro rfl; exact absurd h (by decide)
  have h4 : c ≠ 't' := by rintro rfl; exact absurd h (by decide)
  have h5 : c ≠ 'f' := by rintro rfl; exact absurd h (by decide)
  have h6 : c ≠ 'n' := by rintro rfl; exact absurd h (by decide)
  have h7 : c ≠ '-' := by rintro rfl; exact absurd h (by decide)
  rw [parseValue, skipWs_cons c b (isWs_of_isDig c h)]
  simp [h1, h2, h3, h4, h5, h6, h7, h]

theorem string_mk_data (s : String) : String.mk s.data = s := rfl

theorem emitV_list_cons (x : PyObj) (xs : List PyObj)
    (h : (emitV (.list (x :: xs))).2 = true) :
    (emitV x).2 = true ∧ (emitArrRest xs).2 = true ∧
      (emitV (.list (x :: xs))).1 = '[' :: (emitV x).1 ++ (emitArrRest xs).1 ++ [']'] := by
  rcases hx : emitV x with ⟨cx, bx⟩
  rcases hr : emitArrRest xs with ⟨cr, br⟩
  cases bx <;> cases br <;> simp [emitV, hx, hr] at h ⊢

theorem emitArrRest_cons (x : PyObj) (xs : List PyObj)
    (h : (emitArrRest (x :: xs)).2 = true) :
    (emitV x).2 = true ∧ (emitArrRest xs).2 = true ∧
      (emitArrRest (x :: xs)).1 = ',' :: ' ' :: (emitV x).1 ++ (emitArrRest xs).1 := by
  rcases hx : emitV x with ⟨cx, bx⟩
  rcases hr : emitArrRest xs with ⟨cr, br⟩
  cases bx <;> cases br <;> simp [emitArrRest, hx, hr] at h ⊢

theorem emitV_dict_cons (k : String) (v : PyObj) (kvs : List (String × PyObj))
    (h : (emitV (.dict ((k, v) :: kvs))).2 = true) :
    (emitV v).2 = true ∧ (emitObjRest kvs).2 = true ∧
      (emitV (.dict ((k, v) :: kvs))).1 =
        '\x7b' :: keyChars k ++ (emitV v).1 ++ (emitObjRest kvs).1 ++ ['\x7d'] := by
  rcases hv : emitV v with ⟨cv, bv⟩
  rcases hr : emitObjRest kvs with ⟨cr, br⟩
  cases bv <;> cases br <;> simp [emitV, hv, hr] at h ⊢

theorem emitObjRest_cons (k : String) (v : PyObj) (kvs : List (String × PyObj))
    (h : (emitObjRest ((k, v) :: kvs)).2 = true) :
    (emitV v).2 = true ∧ (emitObjRest kvs).2 = true ∧
      (emitObjRest ((k, v) :: kvs)).1 =
        ',' :: ' ' :: keyChars k ++ (emitV v).1 ++ (emitObjRest kvs).1 := by
  rcases hv : emitV v with ⟨cv, bv⟩
  rcases hr : emitObjRest kvs with ⟨cr, br⟩
  cases bv <;> cases br <;> simp [emitObjRest, hv, hr] at h ⊢

theorem emit_head (v : PyObj) (h : (emitV v).2 = true) :
    ∃ c cs, (emitV v).1 = c :: cs ∧ isWs c = false ∧ c ≠ ']' := by
  cases v with
  | str s => exact ⟨'"', escString s ++ ['"'], rfl, by decide, by decide⟩
  | int n =>
    show ∃ c cs, intChars n = c :: cs ∧ isWs c = false ∧ c ≠ ']'
    rw [intChars]
    by_cases hn : n < 0
    · rw [if_pos hn]
      exact ⟨'-', natToDigits n.natAbs, rfl, by decide, by decide⟩
    · rw [if_neg hn]
      obtain ⟨c, cs, hd, hdig⟩ := natToDigits_head n.natAbs
      refine ⟨c, cs, hd, isWs_of_isDig c hdig, ?_⟩
      rintro rfl
      exact absurd hdig (by decide)
  | bool b =>
    cases b with
    | false => exact ⟨'f', ['a','l','s','e'], rfl, by decide, by decide⟩
    | true => exact ⟨'t', ['r','u','e'], rfl, by decide, by decide⟩
  | pyNone => exact ⟨'n', ['u','l','l'], rfl, by decide, by decide⟩
  | obs d v => exact Bool.noConfusion h
  | patient n o => exact Bool.noConfusion h
  | list xs =>
    cases xs with
    | nil => exact ⟨'[', [']'], rfl, by decide, by decide⟩
    | cons x xs =>
      obtain ⟨_, _, he⟩ := emitV_list_cons x xs h
      exact ⟨'[', (emitV x).1 ++ (emitArrRest xs).1 ++ [']'], he, by decide, by decide⟩
  | dict kvs =>
    cases kvs with
    | nil => exact ⟨'\x7b', ['\x7d'], rfl, by decide, by decide⟩
    | cons kv kvs =>
      rcases kv with ⟨k, v⟩
      obtain ⟨_, _, he⟩ := emitV_dict_cons k v kvs h
      exact ⟨'\x7b', keyChars k ++ (emitV v).1 ++ (emitObjRest kvs).1 ++ ['\x7d'], he, by decide,
        by decide⟩

theorem arr_tail_numSafe (xs : List PyObj) (rest : List Char) :
    numSafe ((emitArrRest xs).1 ++ ']' :: rest) = true := by
  cases xs with
  | nil =>
    show numSafe (']' :: rest) = true
    simp [numSafe]
    decide
  | cons x xs =>
    rcases hx : emitV x with ⟨cx, bx⟩
    rcases hr : emitArrRest xs with ⟨cr, br⟩
    cases bx <;> cases br <;>
      simp [emitArrRest, hx, hr, numSafe] <;> decide

theorem obj_tail_numSafe (kvs : List (String × PyObj)) (rest : List Char) :
    numSafe ((emitObjRest kvs).1 ++ '\x7d' :: rest) = true := by
  cases kvs with
  | nil =>
    show numSafe ('\x7d' :: rest) = true
    simp [numSafe]
    decide
  | cons kv kvs =>
    rcases kv with ⟨k, v⟩
    rcases hv : emitV v with ⟨cv, bv⟩
    rcases hr : emitObjRest kvs with ⟨cr, br⟩
    cases bv <;> cases br <;>
      simp [emitObjRest, hv, hr, numSafe] <;> decide

theorem arr_tail_head (xs : List PyObj) (rest : List Char) :
    skipWs ((emitArrRest xs).1 ++ ']' :: rest) = (emitArrRest xs).1 ++ ']' :: rest := by
  cases xs with
  | nil => exact skipWs_cons ']' rest (by decide)
  | cons x xs =>
    rcases hx : emitV x with ⟨cx, bx⟩
    rcases hr : emitArrRest xs with ⟨cr, br⟩
    cases bx <;> cases br <;>
      simp [emitArrRest, hx, hr] <;> exact skipWs_cons ',' _ (by decide)

theorem obj_tail_head (kvs : List (String × PyObj)) (rest : List Char) :
    skipWs ((emitObjRest kvs).1 ++ '\x7d' :: rest) = (emitObjRest kvs).1 ++ '\x7d' :: rest := by
  cases kvs with
  | nil => exact skipWs_cons '\x7d' rest (by decide)
  | cons kv kvs =>
    rcases kv with ⟨k, v⟩
    rcases hv : emitV v with ⟨cv, bv⟩
    rcases hr : emitObjRest kvs with ⟨cr, br⟩
    cases bv <;> cases br <;>
      simp [emitObjRest, hv, hr] <;> exact skipWs_cons ',' _ (by decide)

theorem parse_emit (fuel : Nat) :
    (∀ v rest, (emitV v).2 = true → (emitV v).1.length < fuel → numSafe rest = true →
       parseValue fuel ((emitV v).1 ++ rest) = .ok (v, rest)) ∧
    (∀ xs rest, (emitArrRest xs).2 = true → (emitArrRest xs).1.length + 1 < fuel →
       parseArrRest fuel ((emitArrRest xs).1 ++ ']' :: rest) = .ok (xs, rest)) ∧
    (∀ kvs rest, (emitObjRest kvs).2 = true → (emitObjRest kvs).1.length + 1 < fuel →
       parseObjRest fuel ((emitObjRest kvs).1 ++ '\x7d' :: rest) = .ok (kvs, rest)) := by
  induction fuel using Nat.strong_induction_on with
  | _ fuel IH =>
  refine ⟨?_, ?_, ?_⟩
  · intro v rest hok hlen hns
    cases fuel with
    | zero => exact absurd hlen (by omega)
    | succ f =>
    obtain ⟨IHV, IHA, IHO⟩ := IH f (by omega)
    cases v with
    | str s =>
      have harr : (emitV (.str s)).1 ++ rest
          = '"' :: ((s.data.map escChar).flatten ++ '"' :: rest) := by
        show ('"' :: escString s ++ ['"']) ++ rest = _
        simp [escString]
      rw [harr, parseValue_quote, parseStringBody_esc]
    | int n =>
      show parseValue (f+1) (intChars n ++ rest) = .ok (.int n, rest)
      rw [intChars]
      by_cases hn : n < 0
      · rw [if_pos hn]
        obtain ⟨c, cs, hd, hdig⟩ := natToDigits_head n.natAbs
        rw [List.cons_append, parseValue, skipWs_cons '-' _ (by decide)]
        rw [hd, List.cons_append]
        have hpd : parseDigits (c :: (cs ++ rest)) 0 = (n.natAbs, rest) := by
          rw [← List.cons_append, ← hd]
          exact parseDigits_natToDigits n.natAbs rest hns
        have habs : |n| = -n := abs_of_neg hn
        simp [hdig, hpd, habs]
      · rw [if_neg hn]
        obtain ⟨c, cs, hd, hdig⟩ := natToDigits_head n.natAbs
        rw [hd, List.cons_append, parseValue_digit f c (cs ++ rest) hdig]
        have hpd : parseDigits (c :: (cs ++ rest)) 0 = (n.natAbs, rest) := by
          rw [← List.cons_append, ← hd]
          exact parseDigits_natToDigits n.natAbs rest hns
        have habs : |n| = n := abs_of_nonneg (by omega)
        simp [hpd, habs]
    | bool b =>
      cases b with
      | true =>
        show parseValue (f+1) (['t','r','u','e'] ++ rest) = .ok (.bool true, rest)
        rw [List.cons_append, parseValue, skipWs_cons 't' _ (by decide)]
        simp
      | false =>
        show parseValue (f+1) (['f','a','l','s','e'] ++ rest) = .ok (.bool false, rest)
        rw [List.cons_append, parseValue, skipWs_cons 'f' _ (by decide)]
        simp
    | pyNone =>
      show parseValue (f+1) (['n','u','l','l'] ++ rest) = .ok (.pyNone, rest)
      rw [List.cons_append, parseValue, skipWs_cons 'n' _ (by decide)]
      simp
    | obs d v => exact Bool.noConfusion hok
    | patient n o => exact Bool.noConfusion hok
    | list xs =>
      cases xs with
      | nil =>
        show parseValue (f+1) (['[', ']'] ++ rest) = .ok (.list [], rest)
        rw [List.cons_append, parseValue, skipWs_cons '[' _ (by decide)]
        have hsk : skipWs (']' :: rest) = ']' :: rest := skipWs_cons ']' rest (by decide)
        simp [hsk]
      | cons x xs =>
        obtain ⟨hbx, hbr, hemit⟩ := emitV_list_cons x xs hok
        rw [hemit] at hlen ⊢
        simp only [List.length_cons, List.length_append, List.length_singleton] at hlen
        obtain ⟨hc, htl, hcx, hcws, hcne⟩ := emit_head x hbx
        have harr : ('[' :: (emitV x).1 ++ (emitArrRest xs).1 ++ [']']) ++ rest
            = '[' :: ((emitV x).1 ++ ((emitArrRest xs).1 ++ ']' :: rest)) := by simp
        have hskip : skipWs ((emitV x).1 ++ ((emitArrRest xs).1 ++ ']' :: rest))
            = hc :: (htl ++ ((emitArrRest xs).1 ++ ']' :: rest)) := by
          rw [hcx, List.cons_append, skipWs_cons hc _ hcws]
        have hpv : parseValue f (hc :: (htl ++ ((emitArrRest xs).1 ++ ']' :: rest)))
            = .ok (x, (emitArrRest xs).1 ++ ']' :: rest) := by
          rw [← List.cons_append, ← hcx]
          exact IHV x ((emitArrRest xs).1 ++ ']' :: rest) hbx (by omega)
            (arr_tail_numSafe xs rest)
        have hpa : parseArrRest f ((emitArrRest xs).1 ++ ']' :: rest) = .ok (xs, rest) :=
          IHA xs rest hbr (by omega)
        rw [harr, parseValue, skipWs_cons '[' _ (by decide)]
        simp [hskip, hcne, hpv, hpa]
    | dict kvs =>
      cases kvs with
      | nil =>
        show parseValue (f+1) (['\x7b', '\x7d'] ++ rest) = .ok (.dict [], rest)
        rw [List.cons_append, parseValue, skipWs_cons '\x7b' _ (by decide)]
        have hsk : skipWs ('\x7d' :: rest) = '\x7d' :: rest := skipWs_cons '\x7d' rest (by decide)
        simp [hsk]
      | cons kv kvs =>
        rcases kv with ⟨k, v⟩
        obtain ⟨hbv, hbr, hemit⟩ := emitV_dict_cons k v kvs hok
        rw [hemit] at hlen ⊢
        simp only [List.length_cons, List.length_append, List.length_singleton, keyChars,
          List.length_cons] at hlen
        have harr : ('\x7b' :: keyChars k ++ (emitV v).1 ++ (emitObjRest kvs).1 ++ ['\x7d']) ++ rest
            = '\x7b' :: ('"' :: ((k.data.map escChar).flatten ++
                ('"' :: ':' :: ' ' :: ((emitV v).1 ++ ((emitObjRest kvs).1 ++ '\x7d' :: rest))))) := by
          simp [keyChars, escString]
        have hsk : skipWs ('"' :: ((k.data.map escChar).flatten ++
            ('"' :: ':' :: ' ' :: ((emitV v).1 ++ ((emitObjRest kvs).1 ++ '\x7d' :: rest)))))
            = '"' :: ((k.data.map escChar).flatten ++
                ('"' :: ':' :: ' ' :: ((emitV v).1 ++ ((emitObjRest kvs).1 ++ '\x7d' :: rest)))) :=
          skipWs_cons '"' _ (by decide)
        have hpsb := parseStringBody_esc k.data
          (':' :: ' ' :: ((emitV v).1 ++ ((emitObjRest kvs).1 ++ '\x7d' :: rest)))
        have hsk2 : skipWs (':' :: ' ' :: ((emitV v).1 ++ ((emitObjRest kvs).1 ++ '\x7d' :: rest)))
            = ':' :: ' ' :: ((emitV v).1 ++ ((emitObjRest kvs).1 ++ '\x7d' :: rest)) :=
          skipWs_cons ':' _ (by decide)
        have hpv : parseValue f (' ' :: ((emitV v).1 ++ ((emitObjRest kvs).1 ++ '\x7d' :: rest)))
            = .ok (v, (emitObjRest kvs).1 ++ '\x7d' :: rest) := by
          rw [parseValue_ws_cons f ' ' _ (by decide)]
          exact IHV v ((emitObjRest kvs).1 ++ '\x7d' :: rest) hbv (by omega)
            (obj_tail_numSafe kvs rest)
        have hpo : parseObjRest f ((emitObjRest kvs).1 ++ '\x7d' :: rest) = .ok (kvs, rest) :=
          IHO kvs rest hbr (by omega)
        rw [harr, parseValue, skipWs_cons '\x7b' _ (by decide)]
        simp [hsk, hpsb, hsk2, hpv, hpo, string_mk_data]
  · intro xs rest hok hlen
    cases fuel with
    | zero => exact absurd hlen (by omega)
    | succ f =>
    obtain ⟨IHV, IHA, IHO⟩ := IH f (by omega)
    cases xs with
    | nil =>
      show parseArrRest (f+1) ([] ++ ']' :: rest) = .ok ([], rest)
      rw [List.nil_append, parseArrRest, skipWs_cons ']' _ (by decide)]
      simp
    | cons x xs =>
      obtain ⟨hbx, hbr, hemit⟩ := emitArrRest_cons x xs hok
      rw [hemit] at hlen ⊢
      simp only [List.length_cons, List.length_append] at hlen
      have harr : (',' :: ' ' :: (emitV x).1 ++ (emitArrRest xs).1) ++ ']' :: rest
          = ',' :: ' ' :: ((emitV x).1 ++ ((emitArrRest xs).1 ++ ']' :: rest)) := by simp
      have hpv : parseValue f (' ' :: ((emitV x).1 ++ ((emitArrRest xs).1 ++ ']' :: rest)))
          = .ok (x, (emitArrRest xs).1 ++ ']' :: rest) := by
        rw [parseValue_ws_cons f ' ' _ (by decide)]
        exact IHV x ((emitArrRest xs).1 ++ ']' :: rest) hbx (by omega) (arr_tail_numSafe xs rest)
      have hpa : parseArrRest f ((emitArrRest xs).1 ++ ']' :: rest) = .ok (xs, rest) :=
        IHA xs rest hbr (by omega)
      rw [harr, parseArrRest, skipWs_cons ',' _ (by decide)]
      simp [hpv, hpa]
  · intro kvs rest hok hlen
    cases fuel with
    | zero => exact absurd hlen (by omega)
    | succ f =>
    obtain ⟨IHV, IHA, IHO⟩ := IH f (by omega)
    cases kvs with
    | nil =>
      show parseObjRest (f+1) ([] ++ '\x7d' :: rest) = .ok ([], rest)
      rw [List.nil_append, parseObjRest, skipWs_cons '\x7d' _ (by decide)]
      simp
    | cons kv kvs =>
      rcases kv with ⟨k, v⟩
      obtain ⟨hbv, hbr, hemit⟩ := emitObjRest_cons k v kvs hok
      rw [hemit] at hlen ⊢
      simp only [List.length_cons, List.length_append, keyChars] at hlen
      have harr : (',' :: ' ' :: keyChars k ++ (emitV v).1 ++ (emitObjRest kvs).1) ++ '\x7d' :: rest
          = ',' :: ' ' :: ('"' :: ((k.data.map escChar).flatten ++
              ('"' :: ':' :: ' ' :: ((emitV v).1 ++ ((emitObjRest kvs).1 ++ '\x7d' :: rest))))) := by
        simp [keyChars, escString]
      have hsk : skipWs (' ' :: ('"' :: ((k.data.map escChar).flatten ++
          ('"' :: ':' :: ' ' :: ((emitV v).1 ++ ((emitObjRest kvs).1 ++ '\x7d' :: rest))))))
          = '"' :: ((k.data.map escChar).flatten ++
              ('"' :: ':' :: ' ' :: ((emitV v).1 ++ ((emitObjRest kvs).1 ++ '\x7d' :: rest)))) := by
        rw [skipWs_cons_ws ' ' _ (by decide), skipWs_cons '"' _ (by decide)]
      have hpsb := parseStringBody_esc k.data
        (':' :: ' ' :: ((emitV v).1 ++ ((emitObjRest kvs).1 ++ '\x7d' :: rest)))
      have hsk2 : skipWs (':' :: ' ' :: ((emitV v).1 ++ ((emitObjRest kvs).1 ++ '\x7d' :: rest)))
          = ':' :: ' ' :: ((emitV v).1 ++ ((emitObjRest kvs).1 ++ '\x7d' :: rest)) :=
        skipWs_cons ':' _ (by decide)
      have hpv : parseValue f (' ' :: ((emitV v).1 ++ ((emitObjRest kvs).1 ++ '\x7d' :: rest)))
          = .ok (v, (emitObjRest kvs).1 ++ '\x7d' :: rest) := by
        rw [parseValue_ws_cons f ' ' _ (by decide)]
        exact IHV v ((emitObjRest kvs).1 ++ '\x7d' :: rest) hbv (by omega)
          (obj_tail_numSafe kvs rest)
      have hpo : parseObjRest f ((emitObjRest kvs).1 ++ '\x7d' :: rest) = .ok (kvs, rest) :=
        IHO kvs rest hbr (by omega)
      rw [harr, parseObjRest, skipWs_cons ',' _ (by decide)]
      simp [hsk, hpsb, hsk2, hpv, hpo, string_mk_data]

theorem stringMk_data (l : List Char) : (String.mk l).data = l := rfl

theorem jsonLoad_emit (v : PyObj) (h : (emitV v).2 = true) :
    jsonLoad (String.mk (emitV v).1) = .ok v := by
  have hp := (parse_emit ((emitV v).1.length + 1)).1 v [] h (by omega) (by rfl)
  rw [List.append_nil] at hp
  simp [jsonLoad, stringMk_data, hp, skipWs]

theorem emitArrRest_flag (xs : List PyObj) (h : ∀ x ∈ xs, (emitV x).2 = true) :
    (emitArrRest xs).2 = true := by
  induction xs with
  | nil => rfl
  | cons x xs ih =>
    rcases hx : emitV x with ⟨cx, bx⟩
    rcases hr : emitArrRest xs with ⟨cr, br⟩
    have hbx : bx = true := by have h2 := h x (by simp); rwa [hx] at h2
    have hbr : br = true := by
      have h2 := ih (fun y hy => h y (by simp [hy]))
      rwa [hr] at h2
    subst hbx
    subst hbr
    simp [emitArrRest, hx, hr]

theorem emitV_list_flag (xs : List PyObj) (h : ∀ x ∈ xs, (emitV x).2 = true) :
    (emitV (.list xs)).2 = true := by
  cases xs with
  | nil => rfl
  | cons x xs =>
    rcases hx : emitV x with ⟨cx, bx⟩
    rcases hr : emitArrRest xs with ⟨cr, br⟩
    have hbx : bx = true := by have h2 := h x (by simp); rwa [hx] at h2
    have hbr : br = true := by
      have h2 := emitArrRest_flag xs (fun y hy => h y (by simp [hy]))
      rwa [hr] at h2
    subst hbx
    subst hbr
    simp [emitV, hx, hr]

theorem emitObjRest_flag (kvs : List (String × PyObj))
    (h : ∀ kv ∈ kvs, (emitV kv.2).2 = true) : (emitObjRest kvs).2 = true := by
  induction kvs with
  | nil => rfl
  | cons kv kvs ih =>
    rcases kv with ⟨k, v⟩
    rcases hv : emitV v with ⟨cv, bv⟩
    rcases hr : emitObjRest kvs with ⟨cr, br⟩
    have hbv : bv = true := by have h2 := h (k, v) (by simp); rwa [hv] at h2
    have hbr : br = true := by
      have h2 := ih (fun y hy => h y (by simp [hy]))
      rwa [hr] at h2
    subst hbv
    subst hbr
    simp [emitObjRest, hv, hr]

theorem emitV_dict_flag (kvs : List (String × PyObj))
    (h : ∀ kv ∈ kvs, (emitV kv.2).2 = true) : (emitV (.dict kvs)).2 = true := by
  cases kvs with
  | nil => rfl
  | cons kv kvs =>
    rcases kv with ⟨k, v⟩
    rcases hv : emitV v with ⟨cv, bv⟩
    rcases hr : emitObjRest kvs with ⟨cr, br⟩
    have hbv : bv = true := by have h2 := h (k, v) (by simp); rwa [hv] at h2
    have hbr : br = true := by
      have h2 := emitObjRest_flag kvs (fun y hy => h y (by simp [hy]))
      rwa [hr] at h2
    subst hbv
    subst hbr
    simp [emitV, hv, hr]

theorem emit_obsRec_flag (d v : Int) :
    (emitV (obsRec (.obs (.int d) (.int v)))).2 = true := by
  show (emitV (.dict [("day", PyObj.int d), ("value", PyObj.int v)])).2 = true
  apply emitV_dict_flag
  intro kv hkv
  simp only [List.mem_cons, List.mem_singleton, List.not_mem_nil, or_false] at hkv
  rcases hkv with rfl | rfl <;> rfl

theorem emit_patRec_flag (p : PyObj) (h : goodPatient p = true) :
    (emitV (patRec p)).2 = true := by
  obtain ⟨s, os, rfl, hne, hos⟩ := goodPatient_shape p h
  show (emitV (.dict [("name", .str s), ("observations", .list (os.map obsRec))])).2 = true
  apply emitV_dict_flag
  intro kv hkv
  simp only [List.mem_cons, List.mem_singleton, List.not_mem_nil, or_false] at hkv
  rcases hkv with rfl | rfl
  · rfl
  · show (emitV (.list (os.map obsRec))).2 = true
    apply emitV_list_flag
    intro x hx
    simp only [List.mem_map] at hx
    obtain ⟨o, ho, rfl⟩ := hx
    have hg : goodObs o = true := by
      rw [List.all_eq_true] at hos
      exact hos o ho
    obtain ⟨d, v, rfl⟩ := goodObs_shape o hg
    exact emit_obsRec_flag d v

theorem records_flag (ps : List PyObj) (h : ps.all goodPatient = true) :
    (emitV (.list (ps.map patRec))).2 = true := by
  apply emitV_list_flag
  intro x hx
  simp only [List.mem_map] at hx
  obtain ⟨p, hp, rfl⟩ := hx
  have hg : goodPatient p = true := by
    rw [List.all_eq_true] at h
    exact h p hp
  exact emit_patRec_flag p hg

theorem save_writes (ps : List PyObj) (path : String) (fs : FS)
    (h : ps.all goodPatient = true) :
    (PatientJSONSerializer.save (.list ps) path fs).1 = .ok () ∧
      (PatientJSONSerializer.save (.list ps) path fs).2 path
        = some (String.mk (emitV (.list (ps.map patRec))).1) := by
  unfold PatientJSONSerializer.save
  rw [pat_serialize_eq ps h]
  rcases he : emitV (.list (ps.map patRec)) with ⟨cs, b⟩
  have hb : b = true := by have h2 := records_flag ps h; rwa [he] at h2
  subst hb
  simp [he, fsWrite]

theorem load_after_save (ps : List PyObj) (path : String) (fs : FS)
    (h : ps.all goodPatient = true) :
    PatientJSONSerializer.load path (PatientJSONSerializer.save (.list ps) path fs).2
      = .ok (.list ps) := by
  obtain ⟨hok, hcontent⟩ := save_writes ps path fs h
  unfold PatientJSONSerializer.load
  rw [hcontent]
  simp [jsonLoad_emit _ (records_flag ps h), pat_deserialize_eq ps h]

theorem dictGet_dictSet_ne (kvs : List (String × PyObj)) (k k' : String) (v : PyObj)
    (h : k' ≠ k) : dictGet (dictSet kvs k v) k' = dictGet kvs k' := by
  have hne : k ≠ k' := fun hc => h hc.symm
  induction kvs with
  | nil => simp [dictSet, dictGet, hne]
  | cons kv kvs ih =>
    rcases kv with ⟨k0, v0⟩
    by_cases h0 : k0 = k
    · subst h0
      simp [dictSet, dictGet, hne]
    · simp [dictSet, dictGet, h0, ih]

/-- Claim C1: round trip.  For every sequence of well-formed Patient
records (string name, non-empty, observation lists with integer day and
value), PatientSerializer.deserialize inverts PatientSerializer.serialize
field-wise, and the same holds through the file layer:
PatientJSONSerializer.load after PatientJSONSerializer.save returns the
input sequence. -/
theorem claim_C1_round_trip (ps : List PyObj) (path : String) (fs : FS)
    (h : ps.all goodPatient = true) :
    (∃ recs, PatientSerializer.serialize (.list ps) = .ok recs ∧
       (PatientSerializer.deserialize recs).1 = .ok (.list ps)) ∧
    PatientJSONSerializer.load path (PatientJSONSerializer.save (.list ps) path fs).2
      = .ok (.list ps) := by
  refine ⟨⟨.list (ps.map patRec), pat_serialize_eq ps h, ?_⟩, load_after_save ps path fs h⟩
  rw [pat_deserialize_eq ps h]

/-- Witness for C1: the lesson's own test data (Alice and Bob) satisfies
the hypothesis and round-trips through a file. -/
theorem claim_C1_round_trip_witness :
    samplePatients.all goodPatient = true ∧
    PatientJSONSerializer.load "patients.json"
      (PatientJSONSerializer.save (.list samplePatients) "patients.json"
        (fun _ => Option.none)).2 = .ok (.list samplePatients) :=
  ⟨by rfl,
   (claim_C1_round_trip samplePatients "patients.json" (fun _ => Option.none) (by rfl)).2⟩

/-- Claim C2, counterexample: deserializing an observation record missing
the value key raises TypeError (from the keyword-argument mismatch), and
deserializing a patient record missing observations raises KeyError (from
dict.pop); neither is a SchemaError — the source defines no such class
and never raises one. -/
theorem claim_C2_counterexample :
    ObservationSerializer.deserialize (.list [.dict [("day", .int 0)]]) = .error .typeError ∧
    (PatientSerializer.deserialize (.list [.dict [("name", .str "A")]])).1 = .error .keyError ∧
    (Except.error .typeError : Except PyError PyObj) ≠ .error .schemaError ∧
    (Except.error .keyError : Except PyError PyObj) ≠ .error .schemaError := by
  refine ⟨rfl, rfl, ?_, ?_⟩ <;> (intro hc; injection hc with hc'; exact absurd hc' (by decide))

/-- Claim C2 as amended: deserialize does fail whenever an observation
record has a missing or extra key, whenever a patient record lacks
observations, whenever the observations value cannot be deserialized, and
whenever name is absent afterward — but the errors are TypeError and
KeyError (or the propagated inner error), not a SchemaError class. -/
theorem claim_C2_amended :
    (∀ kvs : List (String × PyObj),
       ((dictGet kvs "day").isNone = true ∨ (dictGet kvs "value").isNone = true ∨
         kvs.length ≠ 2) →
       ObservationSerializer.deserialize (.list [.dict kvs]) = .error .typeError) ∧
    (∀ kvs : List (String × PyObj), dictPop kvs "observations" = Option.none →
       (PatientSerializer.deserialize (.list [.dict kvs])).1 = .error .keyError) ∧
    (∀ (kvs kvs1 : List (String × PyObj)) (v : PyObj) (e : PyError),
       dictPop kvs "observations" = some (v, kvs1) →
       ObservationSerializer.deserialize v = .error e →
       (PatientSerializer.deserialize (.list [.dict kvs])).1 = .error e) ∧
    (∀ (kvs kvs1 : List (String × PyObj)) (v os : PyObj),
       dictPop kvs "observations" = some (v, kvs1) →
       ObservationSerializer.deserialize v = .ok os →
       dictGet kvs1 "name" = Option.none →
       (PatientSerializer.deserialize (.list [.dict kvs])).1 = .error .typeError) := by
  refine ⟨?_, ?_, ?_, ?_⟩
  · intro kvs hbad
    rcases h1 : dictGet kvs "day" with _ | dv
    · simp [ObservationSerializer.deserialize, pyIter, mapE, Observation.fromKwargs, h1]
    · rcases h2 : dictGet kvs "value" with _ | vv
      · simp [ObservationSerializer.deserialize, pyIter, mapE, Observation.fromKwargs, h1, h2]
      · have hlen : kvs.length ≠ 2 := by
          rcases hbad with hb | hb | hb
          · rw [h1] at hb
            simp at hb
          · rw [h2] at hb
            simp at hb
          · exact hb
        simp [ObservationSerializer.deserialize, pyIter, mapE, Observation.fromKwargs,
          h1, h2, hlen]
  · intro kvs hpop
    simp [PatientSerializer.deserialize, deserializeLoop, deserializeItem, hpop]
  · intro kvs kvs1 v e hpop herr
    simp [PatientSerializer.deserialize, deserializeLoop, deserializeItem, hpop, herr]
  · intro kvs kvs1 v os hpop hok hname
    have hget : dictGet (dictSet kvs1 "observations" os) "name" = Option.none := by
      rw [dictGet_dictSet_ne kvs1 "observations" "name" os (by decide), hname]
    simp [PatientSerializer.deserialize, deserializeLoop, deserializeItem, hpop, hok,
      Patient.fromKwargs, hget]

/-- Witness for C2 amended: an observation record with only a day key is
rejected with TypeError. -/
theorem claim_C2_amended_witness :
    ObservationSerializer.deserialize (.list [.dict [("day", PyObj.int 0)]])
      = .error .typeError :=
  claim_C2_amended.1 [("day", PyObj.int 0)] (Or.inr (Or.inl (by rfl)))

/-- Claim C3, counterexample: PatientSerializer.deserialize mutates its
input.  After deserializing one well-formed patient record, the record's
observations entry holds Observation instances instead of the generic
records it held before the call, so the mapping no longer holds exactly
its previous entries. -/
theorem claim_C3_counterexample :
    (PatientSerializer.deserialize (.list [.dict [("name", .str "A"),
        ("observations", .list [.dict [("day", .int 0), ("value", .int 1)]])]])).2
      = .list [.dict [("name", .str "A"), ("observations", .list [.obs (.int 0) (.int 1)])]] ∧
    (PyObj.list [.dict [("name", .str "A"),
        ("observations", .list [.obs (.int 0) (.int 1)])]])
      ≠ .list [.dict [("name", .str "A"),
          ("observations", .list [.dict [("day", .int 0), ("value", .int 1)]])]] := by
  refine ⟨rfl, ?_⟩
  simp

/-- Claim C3 as amended: serialize builds fresh records and leaves its
input alone (it is a pure function of its argument in this model), but
deserialize hands back its input list with every patient record mutated:
the observations entry now holds the deserialized Observation instances
(patMutRec), with the remaining entries intact. -/
theorem claim_C3_amended (ps : List PyObj) (h : ps.all goodPatient = true) :
    (PatientSerializer.deserialize (.list (ps.map patRec))).2 = .list (ps.map patMutRec) := by
  rw [pat_deserialize_eq ps h]

/-- Witness for C3 amended at the sample data. -/
theorem claim_C3_amended_witness :
    (PatientSerializer.deserialize (.list (samplePatients.map patRec))).2
      = .list (samplePatients.map patMutRec) :=
  claim_C3_amended samplePatients (by rfl)

/-- Claim C4, counterexample: load on a file of non-JSON text raises
json.JSONDecodeError, and load on a file whose valid JSON is a top-level
object raises AttributeError (iterating the object yields its keys, whose
pop attribute does not exist); neither error is a FormatError — the
source defines no such class. -/
theorem claim_C4_counterexample :
    PatientJSONSerializer.load "p.json" (fun _ => some "not json")
      = .error .jsonDecodeError ∧
    PatientJSONSerializer.load "p.json" (fun _ => some "\x7b\"a\": 1\x7d")
      = .error .attributeError ∧
    (Except.error .jsonDecodeError : Except PyError PyObj) ≠ .error .formatError ∧
    (Except.error .attributeError : Except PyError PyObj) ≠ .error .formatError := by
  refine ⟨rfl, rfl, ?_, ?_⟩ <;> (intro hc; injection hc with hc'; exact absurd hc' (by decide))

/-- Claim C4 as amended: on text that is not valid JSON, load propagates
json.JSONDecodeError; on valid JSON whose shape is a non-empty object
rather than an array, load fails during deserialization with
AttributeError.  No FormatError exists or is raised. -/
theorem claim_C4_amended :
    (∀ (path : String) (fs : FS) (text : String), fs path = some text →
       jsonLoad text = .error .jsonDecodeError →
       PatientJSONSerializer.load path fs = .error .jsonDecodeError) ∧
    (∀ (path : String) (fs : FS) (text : String) (k : String) (v : PyObj)
       (kvs : List (String × PyObj)), fs path = some text →
       jsonLoad text = .ok (.dict ((k, v) :: kvs)) →
       PatientJSONSerializer.load path fs = .error .attributeError) := by
  constructor
  · intro path fs text hfs hjson
    unfold PatientJSONSerializer.load
    rw [hfs]
    simp [hjson]
  · intro path fs text k v kvs hfs hjson
    unfold PatientJSONSerializer.load
    rw [hfs]
    simp [hjson, PatientSerializer.deserialize, pyIter]

/-- Witness for C4 amended: a file holding the text nope is rejected with
JSONDecodeError. -/
theorem claim_C4_amended_witness :
    PatientJSONSerializer.load "data.json" (fun _ => some "nope")
      = .error .jsonDecodeError :=
  claim_C4_amended.1 "data.json" (fun _ => some "nope") "nope" rfl rfl

/-- Claim C5, counterexample: save is not atomic.  On a patient whose
observation value is not JSON-serializable, save raises TypeError and
leaves the file holding the partial prefix written before the failure —
the previous content is destroyed, so the file is neither fully written
nor unchanged. -/
theorem claim_C5_counterexample :
    (PatientJSONSerializer.save (.list badPatients) "p.json" (fun _ => some "old")).1
      = .error .typeError ∧
    (PatientJSONSerializer.save (.list badPatients) "p.json" (fun _ => some "old")).2 "p.json"
      = some "[\x7b\"name\": \"A\", \"observations\": [\x7b\"day\": 0, \"value\": " ∧
    (PatientJSONSerializer.save (.list badPatients) "p.json" (fun _ => some "old")).2 "p.json"
      ≠ some "old" := by
  refine ⟨rfl, rfl, ?_⟩
  intro hc
  rw [show (PatientJSONSerializer.save (.list badPatients) "p.json"
      (fun _ => some "old")).2 "p.json"
    = some "[\x7b\"name\": \"A\", \"observations\": [\x7b\"day\": 0, \"value\": " from rfl] at hc
  exact absurd hc (by decide)

/-- Claim C5 as amended: when serialization and encoding succeed — as
they do for every well-formed patient sequence — save reports success and
writes the complete encoded text, which parses back to the serialized
records; when encoding fails the file is overwritten with the partial
prefix, so failure never leaves the previous content in place. -/
theorem claim_C5_amended (ps : List PyObj) (path : String) (fs : FS)
    (h : ps.all goodPatient = true) :
    (PatientJSONSerializer.save (.list ps) path fs).1 = .ok () ∧
    (PatientJSONSerializer.save (.list ps) path fs).2 path
      = some (String.mk (emitV (.list (ps.map patRec))).1) ∧
    jsonLoad (String.mk (emitV (.list (ps.map patRec))).1) = .ok (.list (ps.map patRec)) :=
  ⟨(save_writes ps path fs h).1, (save_writes ps path fs h).2,
   jsonLoad_emit _ (records_flag ps h)⟩

/-- Witness for C5 amended: saving the sample data reports success. -/
theorem claim_C5_amended_witness :
    (PatientJSONSerializer.save (.list samplePatients) "p.json" (fun _ => Option.none)).1
      = .ok () :=
  (claim_C5_amended samplePatients "p.json" (fun _ => Option.none) (by rfl)).1

/-- Claim C6: abstract contract.  Each of the four operations of the base
Serializer raises NotImplementedError for every input, and save leaves
the file store untouched. -/
theorem claim_C6_base_not_implemented (instances data : PyObj) (path : String) (fs : FS) :
    Serializer.serialize instances = .error .notImplementedError ∧
    Serializer.deserialize data = .error .notImplementedError ∧
    Serializer.save instances path fs = (.error .notImplementedError, fs) ∧
    Serializer.load path fs = .error .notImplementedError :=
  ⟨rfl, rfl, rfl, rfl⟩

/-- Claim C7: serialize output shape.  For well-formed inputs,
PatientSerializer.serialize emits per patient, in input order, a record
with exactly the keys name and observations, the latter holding
ObservationSerializer.serialize of that patient's observations; and
ObservationSerializer.serialize emits per observation, in input order, a
record with exactly the keys day and value. -/
theorem claim_C7_serialize_shape (ps os : List PyObj)
    (hp : ps.all goodPatient = true) (ho : os.all goodObs = true) :
    PatientSerializer.serialize (.list ps) = .ok (.list (ps.map patRec)) ∧
    ObservationSerializer.serialize (.list os) = .ok (.list (os.map obsRec)) ∧
    (∀ p ∈ ps, ∃ n obs2, p = .patient n (.list obs2) ∧
       ObservationSerializer.serialize (.list obs2) = .ok (.list (obs2.map obsRec)) ∧
       patRec p = .dict [("name", n), ("observations", .list (obs2.map obsRec))]) ∧
    (∀ o ∈ os, ∃ d v, o = .obs d v ∧ obsRec o = .dict [("day", d), ("value", v)]) := by
  refine ⟨pat_serialize_eq ps hp, obs_serialize_eq os ho, ?_, ?_⟩
  · intro p hmem
    have hg : goodPatient p = true := by
      rw [List.all_eq_true] at hp
      exact hp p hmem
    obtain ⟨s, obs2, rfl, hne, hobs⟩ := goodPatient_shape p hg
    exact ⟨.str s, obs2, rfl, obs_serialize_eq obs2 hobs, rfl⟩
  · intro o hmem
    have hg : goodObs o = true := by
      rw [List.all_eq_true] at ho
      exact ho o hmem
    obtain ⟨d, v, rfl⟩ := goodObs_shape o hg
    exact ⟨.int d, .int v, rfl, rfl⟩

/-- Witness for C7 at the sample data. -/
theorem claim_C7_serialize_shape_witness :
    PatientSerializer.serialize (.list samplePatients)
      = .ok (.list (samplePatients.map patRec)) ∧
    ObservationSerializer.serialize (.list [.obs (.int 0) (.int 3)])
      = .ok (.list ([PyObj.obs (.int 0) (.int 3)].map obsRec)) :=
  ⟨(claim_C7_serialize_shape samplePatients [.obs (.int 0) (.int 3)] (by rfl) (by rfl)).1,
   (claim_C7_serialize_shape samplePatients [.obs (.int 0) (.int 3)] (by rfl) (by rfl)).2.1⟩

/-- Claim C8: on-disk format.  For well-formed patients the text save
writes parses as exactly one JSON array holding, per patient in input
order, an object of shape with keys name (a string) and observations (an
array of objects with integer day and value keys, in observation order);
nothing else is in the file. -/
theorem claim_C8_on_disk_format (ps : List PyObj) (path : String) (fs : FS)
    (h : ps.all goodPatient = true) :
    ∃ text : String,
      (PatientJSONSerializer.save (.list ps) path fs).2 path = some text ∧
      jsonLoad text = .ok (.list (ps.map patRec)) ∧
      ∀ p ∈ ps, ∃ s obs2, p = .patient (.str s) (.list obs2) ∧
        patRec p = .dict [("name", .str s), ("observations", .list (obs2.map obsRec))] ∧
        ∀ o ∈ obs2, ∃ d v : Int, o = .obs (.int d) (.int v) ∧
          obsRec o = .dict [("day", .int d), ("value", .int v)] := by
  refine ⟨String.mk (emitV (.list (ps.map patRec))).1, (save_writes ps path fs h).2,
    jsonLoad_emit _ (records_flag ps h), ?_⟩
  intro p hmem
  have hg : goodPatient p = true := by
    rw [List.all_eq_true] at h
    exact h p hmem
  obtain ⟨s, obs2, rfl, hne, hobs⟩ := goodPatient_shape p hg
  refine ⟨s, obs2, rfl, rfl, ?_⟩
  intro o hmo
  have hgo : goodObs o = true := by
    rw [List.all_eq_true] at hobs
    exact hobs o hmo
  obtain ⟨d, v, rfl⟩ := goodObs_shape o hgo
  exact ⟨d, v, rfl, rfl⟩

/-- Witness for C8 at the sample data. -/
theorem claim_C8_on_disk_format_witness :
    ∃ text : String,
      (PatientJSONSerializer.save (.list samplePatients) "p.json" (fun _ => Option.none)).2
        "p.json" = some text ∧
      jsonLoad text = .ok (.list (samplePatients.map patRec)) := by
  obtain ⟨text, h1, h2, _⟩ :=
    claim_C8_on_disk_format samplePatients "p.json" (fun _ => Option.none) (by rfl)
  exact ⟨text, h1, h2⟩

/-- Claim C9 (implicit): ObservationSerializer overrides only serialize
and deserialize, so its save and load resolve to the base Serializer's
and raise NotImplementedError for every input, leaving the store
untouched. -/
theorem claim_C9_inherited_not_implemented (instances : PyObj) (path : String) (fs : FS) :
    ObservationSerializer.save instances path fs = (.error .notImplementedError, fs) ∧
    ObservationSerializer.load path fs = .error .notImplementedError :=
  ⟨rfl, rfl⟩

/-- Claim C10 (implicit): on the empty batch all four concrete operations
return the empty sequence without error. -/
theorem claim_C10_empty_batch :
    PatientSerializer.serialize (.list []) = .ok (.list []) ∧
    ObservationSerializer.serialize (.list []) = .ok (.list []) ∧
    (PatientSerializer.deserialize (.list [])).1 = .ok (.list []) ∧
    ObservationSerializer.deserialize (.list []) = .ok (.list []) :=
  ⟨rfl, rfl, rfl, rfl⟩
